import Mathlib

/-!
Verification of the Jianpu-transpose OMR pipeline orchestrator
(`src/backend/main.py` and `src/backend/run.py`) against its
natural-language specification.

The Python code is shallowly embedded: the filesystem listing under a
search root is a list of `FileEntry` (path string plus modification
timestamp), child-process outcomes are supplied by an `Env` oracle, and
the pipeline is a pure function returning an `Except` result together
with the ordered trace of external effects (`Event`).
-/

deriving instance DecidableEq for Except

namespace Backend

/-- One filesystem entry under a search root: its path string and its
modification timestamp (Python's `st_mtime`), modelled as a natural
number since only the ordering of timestamps matters. -/
structure FileEntry where
  name : String
  mtime : Nat
  deriving DecidableEq, Repr

/-- Result of one child process (`subprocess.run`): exit code and the
captured, decoded output streams. -/
structure ProcessResult where
  returncode : Int
  stdout : String
  stderr : String
  deriving DecidableEq, Repr

/-- Errors raised by `main.py` (all are `RuntimeError` / `SystemExit`
in the source; here they are kept structurally, mirroring the data the
message strings carry). -/
inductive PipelineError where
  | inputNotFound (path : String)
  | externalToolFailure (cmd : List String) (exitCode : Int)
  | artifactNotFound (root : String)
  | bookNotFound (root : String) (sample : List String)
  | outputNotProduced (path : String)
  deriving DecidableEq, Repr

/-- Embeds `run_cmd` (main.py lines 12-34): the command is executed as a
child process whose outcome `p` the environment supplies; a non-zero
exit raises `RuntimeError` carrying the exit code (modelled as
`externalToolFailure` with the command and code), a zero exit returns
normally. -/
def runCmd (cmd : List String) (p : ProcessResult) : Except PipelineError Unit :=
  if p.returncode ≠ 0 then
    Except.error (PipelineError.externalToolFailure cmd p.returncode)
  else
    Except.ok ()

/-- Embeds Python's `max(candidates, key=...)` over a list: `none` on an
empty list (Python raises `ValueError`; `newest_export` guards the call
so the empty case never reaches `max`), otherwise the FIRST element with
the maximal key, since CPython keeps the current maximum unless a later
element's key is strictly greater. -/
def pyMax (key : α → Nat) : List α → Option α
  | [] => none
  | x :: xs => some (xs.foldl (fun acc y => if key acc < key y then y else acc) x)

/-- Suffix test on strings, via their character lists (the library's
`String.endsWith` is extensionally the same but does not reduce inside
the kernel, which concrete evaluations here need). A `rglob("*.ext")`
match is a filename ending in `.ext`. -/
def strEndsWith (s post : String) : Bool := post.data.isSuffixOf s.data

/-- Literal prefix test on strings, via their character lists. -/
def strStartsWith (s pre : String) : Bool := pre.data.isPrefixOf s.data

/-- Embeds the candidate enumeration of `newest_export` (main.py lines
39-43): all `*.mxl` matches, then all `*.musicxml` matches, then all
`*.xml` matches, each `rglob` preserving the listing order of `fs`.
The three suffix classes are pairwise disjoint, so no file is listed
twice. -/
def exportCandidates (fs : List FileEntry) : List FileEntry :=
  fs.filter (fun f => strEndsWith f.name ".mxl")
    ++ fs.filter (fun f => strEndsWith f.name ".musicxml")
    ++ fs.filter (fun f => strEndsWith f.name ".xml")

/-- A file whose name carries one of the three recognized export
extensions of `newest_export`. -/
def recognizedExport (f : FileEntry) : Bool :=
  strEndsWith f.name ".mxl" || strEndsWith f.name ".musicxml" || strEndsWith f.name ".xml"

/-- Embeds `newest_export` (main.py lines 38-46): gathers the candidates
under `root` (whose listing is `fs`), raises `RuntimeError` ("No
MusicXML export found under: root") when there are none, otherwise
returns the candidate with the latest modification time. -/
def newest_export (root : String) (fs : List FileEntry) : Except PipelineError FileEntry :=
  match pyMax (fun f => f.mtime) (exportCandidates fs) with
  | none => Except.error (PipelineError.artifactNotFound root)
  | some f => Except.ok f

/-- Embeds `newest_omr_book` (main.py lines 49-57): gathers all `*.omr`
matches under `root`; if none, raises `RuntimeError` carrying the first
120 entries of everything found under `root` as a diagnostic sample;
otherwise returns the book with the latest modification time. -/
def newest_omr_book (root : String) (fs : List FileEntry) : Except PipelineError FileEntry :=
  match pyMax (fun f => f.mtime) (fs.filter (fun f => strEndsWith f.name ".omr")) with
  | none =>
      Except.error (PipelineError.bookNotFound root ((fs.map (fun f => f.name)).take 120))
  | some f => Except.ok f

/-- One entry of the MuseScore job specification written by
`build_job_json` (main.py lines 61-69): the input artifact, the plugin
script, and the ordered output list. `input` renders the JSON key "in",
which is a reserved word in Lean. -/
structure JobEntry where
  input : String
  plugin : String
  out : List String
  deriving DecidableEq, Repr

/-- Embeds `build_job_json` (main.py lines 61-69): pure construction of
the one-entry job, serialized as `[{"in": score_in, "plugin":
plugin_qml, "out": [out_mxl, out_pdf]}]`. -/
def build_job_json (scoreIn outMxl outPdf pluginQml : String) : List JobEntry :=
  [{ input := scoreIn, plugin := pluginQml, out := [outMxl, outPdf] }]

/-- Observable external effects of one pipeline run, in order: acquiring
and removing the scoped temporary workspace (the `tempfile.
TemporaryDirectory` context manager, main.py line 103), invoking a
child process, and writing the job specification file. -/
inductive Event where
  | workspaceAcquired
  | ranCmd (cmd : List String)
  | wroteJobSpec (job : List JobEntry)
  | workspaceRemoved
  deriving DecidableEq, Repr

/-- Command-line arguments of `main` (main.py lines 72-84), after
`argparse`, with paths already resolved to strings. -/
structure Args where
  pdfIn : String
  outMxl : String
  outPdf : String
  audiverisExe : String
  musescoreExe : String
  pluginQml : String
  force : Bool
  noOpus : Bool
  deriving DecidableEq, Repr

/-- Oracle for everything the pipeline observes from the outside world:
which input paths exist, the temporary directory name, the outcome of
each child process, the listing of the Audiveris output directory after
each pass, and whether the two requested outputs exist at the end. -/
structure Env where
  pdfInExists : Bool
  audiverisExists : Bool
  musescoreExists : Bool
  pluginExists : Bool
  tmpDir : String
  pass1 : ProcessResult
  fs1 : List FileEntry
  pass2 : ProcessResult
  fs2 : List FileEntry
  musescore : ProcessResult
  outMxlExists : Bool
  outPdfExists : Bool
  deriving DecidableEq, Repr

/-- The Audiveris output directory `tmp / "audiveris_out"` (main.py
line 105). -/
def audOutDir (env : Env) : String := env.tmpDir ++ "/audiveris_out"

/-- The job-specification path `tmp / "job.json"` (main.py line 148). -/
def jobJsonPath (env : Env) : String := env.tmpDir ++ "/job.json"

/-- The first Audiveris command (main.py lines 110-117): batch
transcription of the input PDF into the output directory, with `-force`
appended when requested. -/
def audCmd1 (args : Args) (audOut : String) : List String :=
  ([args.audiverisExe, "-batch", "-transcribe", "-output", audOut]
      ++ (if args.force then ["-force"] else []))
    ++ [args.pdfIn]

/-- The second Audiveris command (main.py lines 130-139): batch export
from the located book, with the OPUS bundling option included unless
`--no-opus` was given. -/
def audCmd2 (args : Args) (audOut book : String) : List String :=
  ([args.audiverisExe, "-batch", "-export", "-output", audOut]
      ++ (if args.noOpus then []
          else ["-option", "org.audiveris.omr.sheet.BookManager.useOpus=true"]))
    ++ [book]

/-- The MuseScore command (main.py line 151): batch job mode against the
persisted job specification. -/
def msCmd (args : Args) (env : Env) : List String :=
  [args.musescoreExe, "-j", jobJsonPath env]

/-- Embeds the OMR export strategy (main.py lines 108-144): run
Audiveris pass 1; try `newest_export`; on its `RuntimeError` locate the
newest `.omr` book (whole pipeline fails if none), run Audiveris pass 2
against it, and re-run `newest_export`. Returns the resolved export
artifact path and the trace of commands run. -/
def exportStrategy (args : Args) (env : Env) : Except PipelineError String × List Event :=
  let audOut := audOutDir env
  let c1 := audCmd1 args audOut
  match runCmd c1 env.pass1 with
  | Except.error e => (Except.error e, [Event.ranCmd c1])
  | Except.ok _ =>
      match newest_export audOut env.fs1 with
      | Except.ok f => (Except.ok f.name, [Event.ranCmd c1])
      | Except.error _ =>
          match newest_omr_book audOut env.fs1 with
          | Except.error e => (Except.error e, [Event.ranCmd c1])
          | Except.ok book =>
              let c2 := audCmd2 args audOut book.name
              match runCmd c2 env.pass2 with
              | Except.error e => (Except.error e, [Event.ranCmd c1, Event.ranCmd c2])
              | Except.ok _ =>
                  match newest_export audOut env.fs2 with
                  | Except.error e => (Except.error e, [Event.ranCmd c1, Event.ranCmd c2])
                  | Except.ok f => (Except.ok f.name, [Event.ranCmd c1, Event.ranCmd c2])

/-- Embeds the body of the `with tempfile.TemporaryDirectory()` block
(main.py lines 103-152): the OMR export strategy followed by writing the
job specification and invoking MuseScore. -/
def withBlockBody (args : Args) (env : Env) : Except PipelineError Unit × List Event :=
  match exportStrategy args env with
  | (Except.error e, evs) => (Except.error e, evs)
  | (Except.ok exported, evs) =>
      let job := build_job_json exported args.outMxl args.outPdf args.pluginQml
      match runCmd (msCmd args env) env.musescore with
      | Except.error e =>
          (Except.error e, evs ++ [Event.wroteJobSpec job, Event.ranCmd (msCmd args env)])
      | Except.ok _ =>
          (Except.ok (), evs ++ [Event.wroteJobSpec job, Event.ranCmd (msCmd args env)])

/-- Embeds the final output validation (main.py lines 154-157): the MXL
output is checked first, then the PDF output; each missing file raises
`SystemExit` naming that one path. -/
def finalChecks (args : Args) (env : Env) : Except PipelineError Unit :=
  if env.outMxlExists = false then
    Except.error (PipelineError.outputNotProduced args.outMxl)
  else if env.outPdfExists = false then
    Except.error (PipelineError.outputNotProduced args.outPdf)
  else
    Except.ok ()

/-- Embeds `main` (main.py lines 72-161): validate the input PDF and the
three tool/plugin paths, acquire the scoped temporary workspace, run the
with-block body, remove the workspace on every exit path of the block
(the context manager's guarantee), and finally validate the two
requested outputs. The second component is the ordered effect trace. -/
def mainModel (args : Args) (env : Env) : Except PipelineError Unit × List Event :=
  if env.pdfInExists = false then
    (Except.error (PipelineError.inputNotFound args.pdfIn), [])
  else if env.audiverisExists = false then
    (Except.error (PipelineError.inputNotFound args.audiverisExe), [])
  else if env.musescoreExists = false then
    (Except.error (PipelineError.inputNotFound args.musescoreExe), [])
  else if env.pluginExists = false then
    (Except.error (PipelineError.inputNotFound args.pluginQml), [])
  else
    match withBlockBody args env with
    | (Except.error e, evs) =>
        (Except.error e, Event.workspaceAcquired :: evs ++ [Event.workspaceRemoved])
    | (Except.ok _, evs) =>
        (finalChecks args env, Event.workspaceAcquired :: evs ++ [Event.workspaceRemoved])

/-- Errors raised by `run.py` (both are `SystemExit` in the source). -/
inductive RunError where
  | missingConfiguration (keys : List String) (dotenvPath : String)
  | inputNotFound (path : String)
  deriving DecidableEq, Repr

/-- Strips every leading and trailing occurrence of the character `c`
from a character list, embedding Python's `str.strip(c)` for a
one-character argument. -/
def stripCharList (c : Char) (l : List Char) : List Char :=
  ((l.dropWhile (fun d => d == c)).reverse.dropWhile (fun d => d == c)).reverse

/-- Strips leading and trailing whitespace from a character list,
embedding Python's `str.strip()`. -/
def trimList (l : List Char) : List Char :=
  ((l.dropWhile Char.isWhitespace).reverse.dropWhile Char.isWhitespace).reverse

/-- Embeds Python's `str.split(sep)` for a one-character separator, on
character lists. -/
def splitOnChar (c : Char) : List Char → List (List Char)
  | [] => [[]]
  | d :: ds =>
      if d == c then [] :: splitOnChar c ds
      else
        match splitOnChar c ds with
        | [] => [[d]]
        | l :: rest => (d :: l) :: rest

/-- Embeds Python's `line.split("=", 1)` together with the guarding
`"=" not in line` test (run.py lines 18-20): `none` when the list holds
no `=`, otherwise the part before the first `=` and everything after
it. -/
def splitFirstEq : List Char → Option (List Char × List Char)
  | [] => none
  | c :: cs =>
      if c == Char.ofNat 61 then some ([], cs)
      else
        match splitFirstEq cs with
        | none => none
        | some (k, v) => some (c :: k, v)

/-- Embeds one iteration of the `load_dotenv` loop (run.py lines 16-21):
trim the raw line; skip it when empty, a comment, or without `=`;
otherwise split at the first `=`, trim the key, and trim the value and
strip surrounding double then single quotes from it. -/
def parseLine (raw : String) : Option (String × String) :=
  let line := trimList raw.data
  if line = [] then none
  else if line.headD (Char.ofNat 32) == Char.ofNat 35 then none
  else
    match splitFirstEq line with
    | none => none
    | some (k, v) =>
        some (String.mk (trimList k),
          String.mk (stripCharList (Char.ofNat 39) (stripCharList (Char.ofNat 34) (trimList v))))

/-- Embeds `load_dotenv` (run.py lines 12-22): a missing configuration
file (`content = none`) yields the empty mapping; otherwise each line
(Python's `splitlines`, here a split at the newline character) appends
its parsed binding, later bindings shadowing earlier ones on lookup as
in a Python dict. -/
def load_dotenv (content : Option String) : List (String × String) :=
  match content with
  | none => []
  | some text =>
      ((splitOnChar (Char.ofNat 10) text.data).map String.mk).foldl
        (fun env raw =>
          match parseLine raw with
          | none => env
          | some kv => env ++ [kv]) []

/-- Python `dict.get`: the value of the last binding of `k`, if any. -/
def dictGet (env : List (String × String)) (k : String) : Option String :=
  (env.reverse.find? (fun p => p.1 == k)).map (fun p => p.2)

/-- Python truthiness of `env.get(key)`: false for an absent key and for
an empty-string value. -/
def truthy : Option String → Bool
  | none => false
  | some s => !(s == "")

/-- The three required configuration keys, in the order the failure
message of run.py lines 41-48 lists them. -/
def requiredKeys : List String := ["AUDIVERIS_EXE", "MUSESCORE_EXE", "JIANPU_QML"]

/-- Embeds `pathlib.Path.stem` for the forward-slash paths used here:
the final path component without its last extension (a leading-dot name
with no further dot has no extension). -/
def pathStem (p : String) : String :=
  let base := (splitOnChar (Char.ofNat 47) p.data).getLastD p.data
  match splitOnChar (Char.ofNat 46) base with
  | [] => String.mk base
  | [_] => String.mk base
  | [[], _] => String.mk base
  | parts => String.mk (List.intercalate [Char.ofNat 46] parts.dropLast)

/-- Embeds `main` of run.py (lines 25-72): load the configuration, read
the three required keys, and fail with a `SystemExit` message naming the
keys `AUDIVERIS_EXE`, `MUSESCORE_EXE`, `JIANPU_QML` and the resolved
dotenv path when the three are not all present and non-empty; then
validate the input PDF, derive the output paths from its stem, and
return the command vector handed to `subprocess.run`. An error return
means no child process is started. -/
def runMain (content : Option String) (dotenvPath pdfIn outDir : String)
    (pdfInExists : Bool) (pythonExe mainPy : String) : Except RunError (List String) :=
  let env := load_dotenv content
  let a := dictGet env "AUDIVERIS_EXE"
  let m := dictGet env "MUSESCORE_EXE"
  let j := dictGet env "JIANPU_QML"
  if !(truthy a && truthy m && truthy j) then
    Except.error (RunError.missingConfiguration requiredKeys dotenvPath)
  else if !pdfInExists then
    Except.error (RunError.inputNotFound pdfIn)
  else
    let outMxl := outDir ++ "/" ++ pathStem pdfIn ++ "_jianpu.mxl"
    let outPdf := outDir ++ "/" ++ pathStem pdfIn ++ "_jianpu.pdf"
    Except.ok [pythonExe, mainPy,
      "--pdf-in", pdfIn,
      "--out-mxl", outMxl,
      "--out-pdf", outPdf,
      "--audiveris-exe", a.getD "",
      "--musescore-exe", m.getD "",
      "--plugin-qml", j.getD ""]

/-- Specification-side predicate for the tie-breaking claim: `r` is the
first element of `l` attaining the maximal modification time. -/
def firstMaximalByMtime (l : List FileEntry) (r : FileEntry) : Prop :=
  ∃ l1 l2, l = l1 ++ r :: l2 ∧ (∀ g ∈ l1, g.mtime < r.mtime) ∧ (∀ g ∈ l2, g.mtime ≤ r.mtime)

/- Helper lemmas about `pyMax`. -/

/-- Characterisation of `pyMax` on a non-empty list: it returns the
first element attaining the maximal key, i.e. everything listed before
the result has a strictly smaller key and everything after it a smaller
or equal key. -/
theorem pyMax_decomp (key : α → Nat) :
    ∀ (xs : List α) (x : α), ∃ l1 m l2, pyMax key (x :: xs) = some m ∧
      x :: xs = l1 ++ m :: l2 ∧ (∀ g ∈ l1, key g < key m) ∧ (∀ g ∈ l2, key g ≤ key m) := by
  intro xs
  induction xs with
  | nil =>
      intro x
      exact ⟨[], x, [], rfl, rfl, by simp, by simp⟩
  | cons y ys ih =>
      intro x
      by_cases h : key x < key y
      · obtain ⟨l1, m, l2, hmax, hdec, h1, h2⟩ := ih y
        have hy_le : key y ≤ key m := by
          cases l1 with
          | nil =>
              simp only [List.nil_append, List.cons.injEq] at hdec
              exact le_of_eq (congrArg key hdec.1)
          | cons a t =>
              simp only [List.cons_append, List.cons.injEq] at hdec
              exact le_of_lt (hdec.1 ▸ h1 a (by simp))
        refine ⟨x :: l1, m, l2, ?_, ?_, ?_, h2⟩
        · have : pyMax key (x :: y :: ys) = pyMax key (y :: ys) := by
            simp [pyMax, List.foldl_cons, h]
          rw [this, hmax]
        · rw [List.cons_append, ← hdec]
        · intro g hg
          rcases List.mem_cons.mp hg with hgx | hgl
          · exact hgx ▸ lt_of_lt_of_le h hy_le
          · exact h1 g hgl
      · obtain ⟨l1, m, l2, hmax, hdec, h1, h2⟩ := ih x
        have hstep : pyMax key (x :: y :: ys) = pyMax key (x :: ys) := by
          simp [pyMax, List.foldl_cons, h]
        cases l1 with
        | nil =>
            simp only [List.nil_append, List.cons.injEq] at hdec
            obtain ⟨hxm, hysl2⟩ := hdec
            refine ⟨[], m, y :: l2, by rw [hstep, hmax], ?_, by simp, ?_⟩
            · simp [← hxm, ← hysl2]
            · intro g hg
              rcases List.mem_cons.mp hg with hgy | hgl
              · exact hgy ▸ (hxm ▸ le_of_not_lt h)
              · exact h2 g hgl
        | cons a t =>
            simp only [List.cons_append, List.cons.injEq] at hdec
            obtain ⟨hxa, hyst⟩ := hdec
            have hx_lt : key x < key m := hxa ▸ h1 a (by simp)
            refine ⟨x :: y :: t, m, l2, by rw [hstep, hmax], ?_, ?_, h2⟩
            · simp [hyst]
            · intro g hg
              rcases List.mem_cons.mp hg with hgx | hg'
              · exact hgx ▸ hx_lt
              · rcases List.mem_cons.mp hg' with hgy | hgt
                · exact hgy ▸ lt_of_le_of_lt (le_of_not_lt h) hx_lt
                · exact h1 g (by simp [hxa, hgt])

/-- On a non-empty list `pyMax` returns a member whose key is maximal. -/
theorem pyMax_spec (key : α → Nat) (l : List α) (h : l ≠ []) :
    ∃ m, pyMax key l = some m ∧ m ∈ l ∧ ∀ g ∈ l, key g ≤ key m := by
  cases l with
  | nil => exact absurd rfl h
  | cons x xs =>
      obtain ⟨l1, m, l2, hmax, hdec, h1, h2⟩ := pyMax_decomp key xs x
      refine ⟨m, hmax, ?_, ?_⟩
      · rw [hdec]; exact List.mem_append.mpr (Or.inr (by simp))
      · intro g hg
        rw [hdec] at hg
        rcases List.mem_append.mp hg with hgl | hgr
        · exact le_of_lt (h1 g hgl)
        · rcases List.mem_cons.mp hgr with hgm | hgl2
          · exact le_of_eq (congrArg key hgm)
          · exact h2 g hgl2

/-- When the first segment of a concatenation contains an element of
maximal key, `pyMax` returns an element of that first segment. -/
theorem pyMax_first_segment (key : α → Nat) (A B : List α) (a : α) (ha : a ∈ A)
    (hmax : ∀ g ∈ A ++ B, key g ≤ key a) :
    ∃ m, pyMax key (A ++ B) = some m ∧ m ∈ A := by
  have hne : A ++ B ≠ [] := by
    intro hnil
    rcases List.append_eq_nil.mp hnil with ⟨hA, _⟩
    exact absurd (hA ▸ ha) (List.not_mem_nil a)
  cases hl : A ++ B with
  | nil => exact absurd hl hne
  | cons x xs =>
      obtain ⟨l1, m, l2, hmax', hdec, h1, h2⟩ := pyMax_decomp key xs x
      have hdec' : A ++ B = l1 ++ m :: l2 := hl ▸ hdec
      have hm_mem : m ∈ A ++ B := by
        rw [hdec']; exact List.mem_append.mpr (Or.inr (by simp))
      have hm_le : key m ≤ key a := hmax m hm_mem
      rcases List.append_eq_append_iff.mp hdec' with ⟨t, hAt, _⟩ | ⟨t, hl1, hml2⟩
      · exact absurd (lt_of_lt_of_le (h1 a (hAt ▸ List.mem_append.mpr (Or.inl ha))) hm_le)
          (lt_irrefl _)
      · cases t with
        | nil =>
            rw [List.append_nil] at hl1
            exact absurd (lt_of_lt_of_le (h1 a (hl1 ▸ ha)) hm_le) (lt_irrefl _)
        | cons c ct =>
            have hmc : m = c := by
              simp only [List.cons_append, List.cons.injEq] at hml2
              exact hml2.1
            refine ⟨m, hl ▸ hmax', ?_⟩
            rw [hl1, hmc]
            exact List.mem_append.mpr (Or.inr (by simp))

/-- Membership in the export-candidate enumeration is membership in the
listing together with a recognized extension. -/
theorem mem_exportCandidates {f : FileEntry} {fs : List FileEntry} :
    f ∈ exportCandidates fs ↔ f ∈ fs ∧ recognizedExport f = true := by
  constructor
  · intro h
    rcases List.mem_append.mp h with h12 | h3
    · rcases List.mem_append.mp h12 with h1 | h2
      · obtain ⟨hf, hp⟩ := List.mem_filter.mp h1
        exact ⟨hf, by simp [recognizedExport, hp]⟩
      · obtain ⟨hf, hp⟩ := List.mem_filter.mp h2
        exact ⟨hf, by simp [recognizedExport, hp]⟩
    · obtain ⟨hf, hp⟩ := List.mem_filter.mp h3
      exact ⟨hf, by simp [recognizedExport, hp]⟩
  · rintro ⟨hf, hrec⟩
    simp only [recognizedExport, Bool.or_eq_true] at hrec
    rcases hrec with (h1 | h2) | h3
    · exact List.mem_append.mpr (Or.inl (List.mem_append.mpr
        (Or.inl (List.mem_filter.mpr ⟨hf, h1⟩))))
    · exact List.mem_append.mpr (Or.inl (List.mem_append.mpr
        (Or.inr (List.mem_filter.mpr ⟨hf, h2⟩))))
    · exact List.mem_append.mpr (Or.inr (List.mem_filter.mpr ⟨hf, h3⟩))

/-- A listing with no recognized file yields no export candidate. -/
theorem exportCandidates_eq_nil {fs : List FileEntry}
    (h : ∀ f ∈ fs, recognizedExport f = false) :
    exportCandidates fs = [] := by
  have key : ∀ f ∈ fs, (strEndsWith f.name ".mxl" = false ∧
      strEndsWith f.name ".musicxml" = false) ∧ strEndsWith f.name ".xml" = false := by
    intro f hf
    have hh := h f hf
    simpa only [recognizedExport, Bool.or_eq_false_iff] using hh
  simp only [exportCandidates, List.append_eq_nil]
  refine ⟨⟨?_, ?_⟩, ?_⟩ <;>
    · rw [List.filter_eq_nil_iff]
      intro a ha
      have hk := key a ha
      simp [hk.1.1, hk.1.2, hk.2]

/-- C2: for every root-directory listing containing files with
recognized extensions (`.mxl`, `.musicxml`, `.xml`) and files with
unrecognized extensions, `newest_export` returns a file of the listing
with a recognized extension whose modification timestamp is maximal
among all recognized candidates under the root. The listing order `fs`
is universally quantified, so the result's maximality is independent of
file creation order. -/
theorem newest_export_returns_latest_recognized (root : String) (fs : List FileEntry)
    (h : ∃ f ∈ fs, recognizedExport f = true) :
    ∃ r, newest_export root fs = Except.ok r ∧ r ∈ fs ∧ recognizedExport r = true ∧
      ∀ g ∈ fs, recognizedExport g = true → g.mtime ≤ r.mtime := by
  obtain ⟨f, hf, hrec⟩ := h
  have hne : exportCandidates fs ≠ [] := by
    intro hnil
    have hmem : f ∈ exportCandidates fs := mem_exportCandidates.mpr ⟨hf, hrec⟩
    rw [hnil] at hmem
    exact List.not_mem_nil f hmem
  obtain ⟨m, hm, hmem, hle⟩ := pyMax_spec (fun f => f.mtime) _ hne
  refine ⟨m, ?_, (mem_exportCandidates.mp hmem).1, (mem_exportCandidates.mp hmem).2, ?_⟩
  · simp [newest_export, hm]
  · intro g hg hgrec
    exact hle g (mem_exportCandidates.mpr ⟨hg, hgrec⟩)

/-- Witness for C2 on a concrete listing holding two recognized files
and one unrecognized file. -/
theorem newest_export_returns_latest_recognized_witness :
    ∃ r, newest_export "out" [⟨"a/old.xml", 3⟩, ⟨"b/notes.txt", 9⟩, ⟨"c/best.mxl", 7⟩] =
        Except.ok r ∧
      r ∈ [FileEntry.mk "a/old.xml" 3, FileEntry.mk "b/notes.txt" 9, FileEntry.mk "c/best.mxl" 7] ∧
      recognizedExport r = true ∧
      ∀ g ∈ [FileEntry.mk "a/old.xml" 3, FileEntry.mk "b/notes.txt" 9,
        FileEntry.mk "c/best.mxl" 7], recognizedExport g = true → g.mtime ≤ r.mtime :=
  newest_export_returns_latest_recognized "out" _ ⟨⟨"c/best.mxl", 7⟩, by decide, by decide⟩

/-- C3: over a listing that is empty or contains no file with a
recognized extension, `newest_export` fails with the artifact-not-found
error for that root; and on every listing whatsoever it either returns
a path or fails with exactly that error, never anything else. -/
theorem newest_export_fails_without_candidates (root : String) (fs : List FileEntry)
    (h : ∀ f ∈ fs, recognizedExport f = false) :
    newest_export root fs = Except.error (PipelineError.artifactNotFound root) ∧
      ∀ fs' : List FileEntry, (∃ r, newest_export root fs' = Except.ok r) ∨
        newest_export root fs' = Except.error (PipelineError.artifactNotFound root) := by
  constructor
  · have hnil : exportCandidates fs = [] := exportCandidates_eq_nil h
    simp [newest_export, hnil, pyMax]
  · intro fs'
    cases hm : pyMax (fun f => f.mtime) (exportCandidates fs') with
    | none => exact Or.inr (by simp [newest_export, hm])
    | some m => exact Or.inl ⟨m, by simp [newest_export, hm]⟩

/-- Witness for C3 on a concrete all-unmatched listing. -/
theorem newest_export_fails_without_candidates_witness :
    newest_export "out" [⟨"book.omr", 2⟩, ⟨"log.txt", 8⟩] =
      Except.error (PipelineError.artifactNotFound "out") :=
  (newest_export_fails_without_candidates "out" _ (by decide)).1

/-- C8: for every listing with no `.omr` file, `newest_omr_book` fails
with an error carrying a bounded diagnostic sample: the first 120
entries of everything found under the root (the whole listing when it
has at most 120 entries, and never more than 120 names). -/
theorem newest_omr_book_failure_sample (root : String) (fs : List FileEntry)
    (h : ∀ f ∈ fs, strEndsWith f.name ".omr" = false) :
    newest_omr_book root fs =
        Except.error (PipelineError.bookNotFound root ((fs.map (fun f => f.name)).take 120)) ∧
      ((fs.map (fun f => f.name)).take 120).length ≤ 120 ∧
      (fs.length ≤ 120 → (fs.map (fun f => f.name)).take 120 = fs.map (fun f => f.name)) := by
  refine ⟨?_, ?_, ?_⟩
  · have hnil : fs.filter (fun f => strEndsWith f.name ".omr") = [] := by
      rw [List.filter_eq_nil_iff]
      intro a ha
      simp [h a ha]
    simp [newest_omr_book, hnil, pyMax]
  · rw [List.length_take]
    exact min_le_left _ _
  · intro hlen
    apply List.take_of_length_le
    simpa using hlen

/-- Witness for C8 on a concrete listing with no book. -/
theorem newest_omr_book_failure_sample_witness :
    newest_omr_book "out" [⟨"sheet#1.png", 4⟩, ⟨"score.mxl", 6⟩] =
        Except.error (PipelineError.bookNotFound "out" ["sheet#1.png", "score.mxl"]) :=
  (newest_omr_book_failure_sample "out" [⟨"sheet#1.png", 4⟩, ⟨"score.mxl", 6⟩] (by decide)).1

/-- C9: `newest_export`'s tie-breaking is deterministic given a fixed
enumeration. The candidate enumeration lists all `.mxl` files, then all
`.musicxml` files, then all `.xml` files (each in listing order), and
among candidates sharing the maximal modification timestamp the first
in that enumeration is returned; in particular, when an `.mxl` file
attains the maximal timestamp the result is an `.mxl` file, so an
`.mxl` file is preferred over an `.xml` file with an equal, maximal
timestamp. -/
theorem newest_export_tie_break_deterministic (root : String) (fs : List FileEntry)
    (h : exportCandidates fs ≠ []) :
    exportCandidates fs =
        fs.filter (fun f => strEndsWith f.name ".mxl")
          ++ fs.filter (fun f => strEndsWith f.name ".musicxml")
          ++ fs.filter (fun f => strEndsWith f.name ".xml") ∧
    ∃ r, newest_export root fs = Except.ok r ∧
      firstMaximalByMtime (exportCandidates fs) r ∧
      (∀ a ∈ fs, strEndsWith a.name ".mxl" = true →
        (∀ g ∈ exportCandidates fs, g.mtime ≤ a.mtime) → strEndsWith r.name ".mxl" = true) := by
  refine ⟨rfl, ?_⟩
  obtain ⟨x, xs, hc⟩ := List.exists_cons_of_ne_nil h
  obtain ⟨l1, m, l2, hmax, hdec, h1, h2⟩ := pyMax_decomp (fun f => f.mtime) xs x
  have e1 : pyMax (fun f => f.mtime) (exportCandidates fs) = some m := by
    rw [hc]; exact hmax
  refine ⟨m, by simp [newest_export, e1], ⟨l1, l2, by rw [hc]; exact hdec, h1, h2⟩, ?_⟩
  intro a ha hamxl hamax
  have hmem : a ∈ fs.filter (fun f => strEndsWith f.name ".mxl") :=
    List.mem_filter.mpr ⟨ha, hamxl⟩
  have hsplit : exportCandidates fs
      = fs.filter (fun f => strEndsWith f.name ".mxl")
        ++ (fs.filter (fun f => strEndsWith f.name ".musicxml")
          ++ fs.filter (fun f => strEndsWith f.name ".xml")) := by
    simp [exportCandidates, List.append_assoc]
  have hmax' : ∀ g ∈ fs.filter (fun f => strEndsWith f.name ".mxl")
      ++ (fs.filter (fun f => strEndsWith f.name ".musicxml")
        ++ fs.filter (fun f => strEndsWith f.name ".xml")), g.mtime ≤ a.mtime := by
    intro g hg
    exact hamax g (by rw [hsplit]; exact hg)
  obtain ⟨m', hm', hm'A⟩ := pyMax_first_segment (fun f => f.mtime) _ _ a hmem hmax'
  have e2 : pyMax (fun f => f.mtime) (exportCandidates fs) = some m' := by
    rw [hsplit]; exact hm'
  have hmm : m = m' := by
    rw [e1] at e2
    exact Option.some.inj e2
  have hfin : m ∈ fs.filter (fun f => strEndsWith f.name ".mxl") := by
    rw [hmm]; exact hm'A
  exact (List.mem_filter.mp hfin).2

/-- Witness for C9 on a concrete listing where an `.xml` file listed
first ties with an `.mxl` file at the maximal timestamp: the `.mxl`
file wins. -/
theorem newest_export_tie_break_deterministic_witness :
    ∃ r, newest_export "out" [⟨"x/a.xml", 5⟩, ⟨"y/b.mxl", 5⟩, ⟨"z/c.musicxml", 4⟩] =
        Except.ok r ∧
      firstMaximalByMtime
        (exportCandidates [⟨"x/a.xml", 5⟩, ⟨"y/b.mxl", 5⟩, ⟨"z/c.musicxml", 4⟩]) r ∧
      (∀ a ∈ [FileEntry.mk "x/a.xml" 5, FileEntry.mk "y/b.mxl" 5, FileEntry.mk "z/c.musicxml" 4],
        strEndsWith a.name ".mxl" = true →
        (∀ g ∈ exportCandidates [⟨"x/a.xml", 5⟩, ⟨"y/b.mxl", 5⟩, ⟨"z/c.musicxml", 4⟩],
          g.mtime ≤ a.mtime) → strEndsWith r.name ".mxl" = true) :=
  (newest_export_tie_break_deterministic "out"
    [⟨"x/a.xml", 5⟩, ⟨"y/b.mxl", 5⟩, ⟨"z/c.musicxml", 4⟩] (by decide)).2

/-- C6: for every command vector, a non-zero child exit makes `runCmd`
fail with the external-tool-failure error carrying both the command and
the exit code, and a zero exit returns normally; any error of the
with-block propagates unchanged as the whole pipeline's result (fatal),
and a failing first invocation leaves a trace containing that one
command exactly once (no retry). -/
theorem runCmd_nonzero_fatal (cmd : List String) (p : ProcessResult) :
    (p.returncode ≠ 0 →
      runCmd cmd p = Except.error (PipelineError.externalToolFailure cmd p.returncode)) ∧
    (p.returncode = 0 → runCmd cmd p = Except.ok ()) ∧
    (∀ args env e, (withBlockBody args env).1 = Except.error e →
      env.pdfInExists = true → env.audiverisExists = true →
      env.musescoreExists = true → env.pluginExists = true →
      (mainModel args env).1 = Except.error e) ∧
    (∀ args env, env.pdfInExists = true → env.audiverisExists = true →
      env.musescoreExists = true → env.pluginExists = true →
      env.pass1.returncode ≠ 0 →
      mainModel args env =
        (Except.error (PipelineError.externalToolFailure
            (audCmd1 args (audOutDir env)) env.pass1.returncode),
          [Event.workspaceAcquired, Event.ranCmd (audCmd1 args (audOutDir env)),
            Event.workspaceRemoved])) := by
  refine ⟨?_, ?_, ?_, ?_⟩
  · intro h; simp [runCmd, h]
  · intro h; simp [runCmd, h]
  · intro args env e hb h1 h2 h3 h4
    rcases hw : withBlockBody args env with ⟨r, evs⟩
    rw [hw] at hb
    simp only at hb
    cases r with
    | error e' =>
        cases hb
        simp [mainModel, h1, h2, h3, h4, hw]
    | ok u => exact absurd hb (by simp)
  · intro args env h1 h2 h3 h4 h5
    have hrc : runCmd (audCmd1 args (audOutDir env)) env.pass1 =
        Except.error (PipelineError.externalToolFailure
          (audCmd1 args (audOutDir env)) env.pass1.returncode) := by
      simp [runCmd, h5]
    have hstrat : exportStrategy args env =
        (Except.error (PipelineError.externalToolFailure
            (audCmd1 args (audOutDir env)) env.pass1.returncode),
          [Event.ranCmd (audCmd1 args (audOutDir env))]) := by
      simp [exportStrategy, hrc]
    have hwb : withBlockBody args env =
        (Except.error (PipelineError.externalToolFailure
            (audCmd1 args (audOutDir env)) env.pass1.returncode),
          [Event.ranCmd (audCmd1 args (audOutDir env))]) := by
      simp [withBlockBody, hstrat]
    simp [mainModel, h1, h2, h3, h4, hwb]

/-- Witness for C6: a concrete command failing with exit code 1. -/
theorem runCmd_nonzero_fatal_witness :
    runCmd ["aud", "-batch"] ⟨1, "", ""⟩ =
        Except.error (PipelineError.externalToolFailure ["aud", "-batch"] 1) :=
  (runCmd_nonzero_fatal ["aud", "-batch"] ⟨1, "", ""⟩).1 (by decide)

/-- C5: whenever any child process invoked by the pipeline exits with a
non-zero status, the controller performs none of the subsequent steps
(the trace ends right after the failing command and the result is that
failure), and the scoped temporary workspace is removed on that failure
path just as on every other exit path: the removal event is in the
trace of every run that acquires the workspace, whatever the outcome.
The three failing children are covered exhaustively: the transcription
pass, the export pass, and the notation editor — the latter over every
successful outcome of the export strategy, so on the single-pass and
the two-pass branch alike. -/
theorem pipeline_halts_and_removes_workspace (args : Args) (env : Env)
    (h1 : env.pdfInExists = true) (h2 : env.audiverisExists = true)
    (h3 : env.musescoreExists = true) (h4 : env.pluginExists = true) :
    Event.workspaceRemoved ∈ (mainModel args env).2 ∧
    (env.pass1.returncode ≠ 0 →
      mainModel args env =
        (Except.error (PipelineError.externalToolFailure
            (audCmd1 args (audOutDir env)) env.pass1.returncode),
          [Event.workspaceAcquired, Event.ranCmd (audCmd1 args (audOutDir env)),
            Event.workspaceRemoved])) ∧
    (env.pass1.returncode = 0 →
      ∀ e, newest_export (audOutDir env) env.fs1 = Except.error e →
      ∀ book, newest_omr_book (audOutDir env) env.fs1 = Except.ok book →
      env.pass2.returncode ≠ 0 →
      mainModel args env =
        (Except.error (PipelineError.externalToolFailure
            (audCmd2 args (audOutDir env) book.name) env.pass2.returncode),
          [Event.workspaceAcquired, Event.ranCmd (audCmd1 args (audOutDir env)),
            Event.ranCmd (audCmd2 args (audOutDir env) book.name),
            Event.workspaceRemoved])) ∧
    (∀ exported evs0, exportStrategy args env = (Except.ok exported, evs0) →
      env.musescore.returncode ≠ 0 →
      mainModel args env =
        (Except.error (PipelineError.externalToolFailure
            (msCmd args env) env.musescore.returncode),
          Event.workspaceAcquired :: evs0 ++
            [Event.wroteJobSpec (build_job_json exported args.outMxl args.outPdf args.pluginQml),
              Event.ranCmd (msCmd args env), Event.workspaceRemoved])) := by
  refine ⟨?_, ?_, ?_, ?_⟩
  · rcases hw : withBlockBody args env with ⟨r, evs⟩
    cases r <;> simp [mainModel, h1, h2, h3, h4, hw]
  · intro h5
    have hrc : runCmd (audCmd1 args (audOutDir env)) env.pass1 =
        Except.error (PipelineError.externalToolFailure
          (audCmd1 args (audOutDir env)) env.pass1.returncode) := by
      simp [runCmd, h5]
    have hstrat : exportStrategy args env =
        (Except.error (PipelineError.externalToolFailure
            (audCmd1 args (audOutDir env)) env.pass1.returncode),
          [Event.ranCmd (audCmd1 args (audOutDir env))]) := by
      simp [exportStrategy, hrc]
    have hwb : withBlockBody args env =
        (Except.error (PipelineError.externalToolFailure
            (audCmd1 args (audOutDir env)) env.pass1.returncode),
          [Event.ranCmd (audCmd1 args (audOutDir env))]) := by
      simp [withBlockBody, hstrat]
    simp [mainModel, h1, h2, h3, h4, hwb]
  · intro hp1 e he book hbook hp2
    have hok1 : runCmd (audCmd1 args (audOutDir env)) env.pass1 = Except.ok () := by
      simp [runCmd, hp1]
    have hrc2 : runCmd (audCmd2 args (audOutDir env) book.name) env.pass2 =
        Except.error (PipelineError.externalToolFailure
          (audCmd2 args (audOutDir env) book.name) env.pass2.returncode) := by
      simp [runCmd, hp2]
    have hstrat : exportStrategy args env =
        (Except.error (PipelineError.externalToolFailure
            (audCmd2 args (audOutDir env) book.name) env.pass2.returncode),
          [Event.ranCmd (audCmd1 args (audOutDir env)),
            Event.ranCmd (audCmd2 args (audOutDir env) book.name)]) := by
      simp [exportStrategy, hok1, he, hbook, hrc2]
    have hwb : withBlockBody args env =
        (Except.error (PipelineError.externalToolFailure
            (audCmd2 args (audOutDir env) book.name) env.pass2.returncode),
          [Event.ranCmd (audCmd1 args (audOutDir env)),
            Event.ranCmd (audCmd2 args (audOutDir env) book.name)]) := by
      simp [withBlockBody, hstrat]
    simp [mainModel, h1, h2, h3, h4, hwb]
  · intro exported evs0 hstrat hms
    have hrcms : runCmd (msCmd args env) env.musescore =
        Except.error (PipelineError.externalToolFailure
          (msCmd args env) env.musescore.returncode) := by
      simp [runCmd, hms]
    have hwb : withBlockBody args env =
        (Except.error (PipelineError.externalToolFailure
            (msCmd args env) env.musescore.returncode),
          evs0 ++ [Event.wroteJobSpec (build_job_json exported args.outMxl args.outPdf args.pluginQml),
            Event.ranCmd (msCmd args env)]) := by
      simp [withBlockBody, hstrat, hrcms]
    simp [mainModel, h1, h2, h3, h4, hwb]

/-- Witness for C5: a run taking the two-pass branch (no export after
transcription, a book found, export pass succeeds) whose notation
editor then exits with code 3 halts with that failure — no output
validation happens although both outputs are absent — and the
workspace is still removed. -/
theorem pipeline_halts_and_removes_workspace_witness :
    mainModel ⟨"in.pdf", "o.mxl", "o.pdf", "aud", "ms", "plug", false, false⟩
        { pdfInExists := true, audiverisExists := true, musescoreExists := true,
          pluginExists := true, tmpDir := "/t", pass1 := ⟨0, "", ""⟩,
          fs1 := [⟨"b.omr", 2⟩], pass2 := ⟨0, "", ""⟩, fs2 := [⟨"m.mxl", 5⟩],
          musescore := ⟨3, "", ""⟩, outMxlExists := false, outPdfExists := false } =
      (Except.error (PipelineError.externalToolFailure
          (msCmd ⟨"in.pdf", "o.mxl", "o.pdf", "aud", "ms", "plug", false, false⟩
            { pdfInExists := true, audiverisExists := true, musescoreExists := true,
              pluginExists := true, tmpDir := "/t", pass1 := ⟨0, "", ""⟩,
              fs1 := [⟨"b.omr", 2⟩], pass2 := ⟨0, "", ""⟩, fs2 := [⟨"m.mxl", 5⟩],
              musescore := ⟨3, "", ""⟩, outMxlExists := false, outPdfExists := false }) 3),
        [Event.workspaceAcquired,
          Event.ranCmd (audCmd1 ⟨"in.pdf", "o.mxl", "o.pdf", "aud", "ms", "plug", false, false⟩
            "/t/audiveris_out"),
          Event.ranCmd (audCmd2 ⟨"in.pdf", "o.mxl", "o.pdf", "aud", "ms", "plug", false, false⟩
            "/t/audiveris_out" "b.omr"),
          Event.wroteJobSpec (build_job_json "m.mxl" "o.mxl" "o.pdf" "plug"),
          Event.ranCmd (msCmd ⟨"in.pdf", "o.mxl", "o.pdf", "aud", "ms", "plug", false, false⟩
            { pdfInExists := true, audiverisExists := true, musescoreExists := true,
              pluginExists := true, tmpDir := "/t", pass1 := ⟨0, "", ""⟩,
              fs1 := [⟨"b.omr", 2⟩], pass2 := ⟨0, "", ""⟩, fs2 := [⟨"m.mxl", 5⟩],
              musescore := ⟨3, "", ""⟩, outMxlExists := false, outPdfExists := false }),
          Event.workspaceRemoved]) :=
  (pipeline_halts_and_removes_workspace
    ⟨"in.pdf", "o.mxl", "o.pdf", "aud", "ms", "plug", false, false⟩
    { pdfInExists := true, audiverisExists := true, musescoreExists := true,
      pluginExists := true, tmpDir := "/t", pass1 := ⟨0, "", ""⟩,
      fs1 := [⟨"b.omr", 2⟩], pass2 := ⟨0, "", ""⟩, fs2 := [⟨"m.mxl", 5⟩],
      musescore := ⟨3, "", ""⟩, outMxlExists := false, outPdfExists := false }
    rfl rfl rfl rfl).2.2.2 "m.mxl"
    [Event.ranCmd (audCmd1 ⟨"in.pdf", "o.mxl", "o.pdf", "aud", "ms", "plug", false, false⟩
        "/t/audiveris_out"),
      Event.ranCmd (audCmd2 ⟨"in.pdf", "o.mxl", "o.pdf", "aud", "ms", "plug", false, false⟩
        "/t/audiveris_out" "b.omr")]
    (by decide) (by decide)

/-- C1: with the transcription pass succeeded, the strategy invokes the
OMR engine a second time exactly when `newest_export` fails after pass
one. When an export artifact is found the trace holds only the
transcription command and its path is the result; when none is found
and no book exists either, the whole pipeline fails with the
book-lookup error and no second command is run; when a book is found,
the export command is invoked against that book — including the OPUS
bundling option unless disabled by `--no-opus` — and the re-run of
`newest_export` over the post-export listing is the resolved
artifact. -/
theorem export_strategy_second_pass_iff (args : Args) (env : Env)
    (hp1 : env.pass1.returncode = 0) :
    (∀ f, newest_export (audOutDir env) env.fs1 = Except.ok f →
      exportStrategy args env =
        (Except.ok f.name, [Event.ranCmd (audCmd1 args (audOutDir env))])) ∧
    (∀ e eb, newest_export (audOutDir env) env.fs1 = Except.error e →
      newest_omr_book (audOutDir env) env.fs1 = Except.error eb →
      exportStrategy args env =
        (Except.error eb, [Event.ranCmd (audCmd1 args (audOutDir env))]) ∧
      (env.pdfInExists = true → env.audiverisExists = true →
        env.musescoreExists = true → env.pluginExists = true →
        (mainModel args env).1 = Except.error eb)) ∧
    (∀ e, newest_export (audOutDir env) env.fs1 = Except.error e →
      ∀ book, newest_omr_book (audOutDir env) env.fs1 = Except.ok book →
      env.pass2.returncode = 0 →
      exportStrategy args env =
        ((newest_export (audOutDir env) env.fs2).map (fun f => f.name),
          [Event.ranCmd (audCmd1 args (audOutDir env)),
            Event.ranCmd (audCmd2 args (audOutDir env) book.name)]) ∧
      (args.noOpus = false →
        audCmd2 args (audOutDir env) book.name =
          [args.audiverisExe, "-batch", "-export", "-output", audOutDir env,
            "-option", "org.audiveris.omr.sheet.BookManager.useOpus=true", book.name]) ∧
      (args.noOpus = true →
        audCmd2 args (audOutDir env) book.name =
          [args.audiverisExe, "-batch", "-export", "-output", audOutDir env,
            book.name])) := by
  have hok1 : runCmd (audCmd1 args (audOutDir env)) env.pass1 = Except.ok () := by
    simp [runCmd, hp1]
  refine ⟨?_, ?_, ?_⟩
  · intro f hf
    simp [exportStrategy, hok1, hf]
  · intro e eb he heb
    have hstrat : exportStrategy args env =
        (Except.error eb, [Event.ranCmd (audCmd1 args (audOutDir env))]) := by
      simp [exportStrategy, hok1, he, heb]
    refine ⟨hstrat, ?_⟩
    intro h1 h2 h3 h4
    have hwb : withBlockBody args env =
        (Except.error eb, [Event.ranCmd (audCmd1 args (audOutDir env))]) := by
      simp [withBlockBody, hstrat]
    simp [mainModel, h1, h2, h3, h4, hwb]
  · intro e he book hbook hp2
    have hok2 : runCmd (audCmd2 args (audOutDir env) book.name) env.pass2 = Except.ok () := by
      simp [runCmd, hp2]
    refine ⟨?_, ?_, ?_⟩
    · cases hne2 : newest_export (audOutDir env) env.fs2 with
      | error e2 => simp [exportStrategy, hok1, he, hbook, hok2, hne2, Except.map]
      | ok f2 => simp [exportStrategy, hok1, he, hbook, hok2, hne2, Except.map]
    · intro hno; simp [audCmd2, hno]
    · intro hno; simp [audCmd2, hno]

/-- Witness for C1: with an `.mxl` export already present after pass
one, the strategy stops after the transcription command. -/
theorem export_strategy_second_pass_iff_witness :
    exportStrategy ⟨"in.pdf", "o.mxl", "o.pdf", "aud", "ms", "plug", false, false⟩
        { pdfInExists := true, audiverisExists := true, musescoreExists := true,
          pluginExists := true, tmpDir := "/t", pass1 := ⟨0, "", ""⟩,
          fs1 := [⟨"sheet/score.mxl", 3⟩], pass2 := ⟨0, "", ""⟩, fs2 := [],
          musescore := ⟨0, "", ""⟩, outMxlExists := true, outPdfExists := true } =
      (Except.ok "sheet/score.mxl",
        [Event.ranCmd (audCmd1 ⟨"in.pdf", "o.mxl", "o.pdf", "aud", "ms", "plug", false, false⟩
          "/t/audiveris_out")]) :=
  (export_strategy_second_pass_iff
    ⟨"in.pdf", "o.mxl", "o.pdf", "aud", "ms", "plug", false, false⟩
    { pdfInExists := true, audiverisExists := true, musescoreExists := true,
      pluginExists := true, tmpDir := "/t", pass1 := ⟨0, "", ""⟩,
      fs1 := [⟨"sheet/score.mxl", 3⟩], pass2 := ⟨0, "", ""⟩, fs2 := [],
      musescore := ⟨0, "", ""⟩, outMxlExists := true, outPdfExists := true }
    rfl).1 ⟨"sheet/score.mxl", 3⟩ (by decide)

/-- C7 as stated fails on the code: at this input both requested
outputs are absent, yet the failure names only the MXL output path,
not every missing output. -/
theorem output_validation_names_only_mxl_cex :
    (mainModel ⟨"in.pdf", "o.mxl", "o.pdf", "aud", "ms", "plug", false, false⟩
        { pdfInExists := true, audiverisExists := true, musescoreExists := true,
          pluginExists := true, tmpDir := "/t", pass1 := ⟨0, "", ""⟩,
          fs1 := [⟨"e.mxl", 1⟩], pass2 := ⟨0, "", ""⟩, fs2 := [],
          musescore := ⟨0, "", ""⟩, outMxlExists := false, outPdfExists := false }).1
      = Except.error (PipelineError.outputNotProduced "o.mxl") ∧
    PipelineError.outputNotProduced "o.mxl" ≠ PipelineError.outputNotProduced "o.pdf" := by
  refine ⟨?_, ?_⟩ <;> decide

/-- C7 amended: after the notation-editor invocation returns
successfully the controller validates the MXL output first and then the
PDF output, failing with an error naming the first missing output in
that order — so when both are missing only the MXL path is named — and
succeeding when both exist. -/
theorem output_validation_order (args : Args) (env : Env)
    (h1 : env.pdfInExists = true) (h2 : env.audiverisExists = true)
    (h3 : env.musescoreExists = true) (h4 : env.pluginExists = true)
    (hb : (withBlockBody args env).1 = Except.ok ()) :
    (env.outMxlExists = false →
      (mainModel args env).1 = Except.error (PipelineError.outputNotProduced args.outMxl)) ∧
    (env.outMxlExists = true → env.outPdfExists = false →
      (mainModel args env).1 = Except.error (PipelineError.outputNotProduced args.outPdf)) ∧
    (env.outMxlExists = true → env.outPdfExists = true →
      (mainModel args env).1 = Except.ok ()) := by
  rcases hw : withBlockBody args env with ⟨r, evs⟩
  rw [hw] at hb
  simp only at hb
  cases r with
  | error e => exact absurd hb (by simp)
  | ok u =>
      refine ⟨?_, ?_, ?_⟩
      · intro hm
        simp [mainModel, h1, h2, h3, h4, hw, finalChecks, hm]
      · intro hm hp
        simp [mainModel, h1, h2, h3, h4, hw, finalChecks, hm, hp]
      · intro hm hp
        simp [mainModel, h1, h2, h3, h4, hw, finalChecks, hm, hp]

/-- Witness for the amended C7: the MXL output alone is missing and is
the one named. -/
theorem output_validation_order_witness :
    (mainModel ⟨"in.pdf", "o.mxl", "o.pdf", "aud", "ms", "plug", false, false⟩
        { pdfInExists := true, audiverisExists := true, musescoreExists := true,
          pluginExists := true, tmpDir := "/t", pass1 := ⟨0, "", ""⟩,
          fs1 := [⟨"e.mxl", 1⟩], pass2 := ⟨0, "", ""⟩, fs2 := [],
          musescore := ⟨0, "", ""⟩, outMxlExists := false, outPdfExists := true }).1
      = Except.error (PipelineError.outputNotProduced "o.mxl") :=
  (output_validation_order
    ⟨"in.pdf", "o.mxl", "o.pdf", "aud", "ms", "plug", false, false⟩
    { pdfInExists := true, audiverisExists := true, musescoreExists := true,
      pluginExists := true, tmpDir := "/t", pass1 := ⟨0, "", ""⟩,
      fs1 := [⟨"e.mxl", 1⟩], pass2 := ⟨0, "", ""⟩, fs2 := [],
      musescore := ⟨0, "", ""⟩, outMxlExists := false, outPdfExists := true }
    rfl rfl rfl rfl (by decide)).1 rfl

/-- C4 as stated fails on the code: at this configuration only
`AUDIVERIS_EXE` is missing while the other two keys are present and
non-empty, yet the failure names all three required keys, not exactly
the missing subset. -/
theorem config_failure_names_all_keys_cex :
    runMain (some "MUSESCORE_EXE=ms\nJIANPU_QML=plug") ".env" "in.pdf" "outdir"
        true "python" "main.py" =
      Except.error (RunError.missingConfiguration
        ["AUDIVERIS_EXE", "MUSESCORE_EXE", "JIANPU_QML"] ".env") ∧
    truthy (dictGet (load_dotenv (some "MUSESCORE_EXE=ms\nJIANPU_QML=plug"))
      "AUDIVERIS_EXE") = false ∧
    truthy (dictGet (load_dotenv (some "MUSESCORE_EXE=ms\nJIANPU_QML=plug"))
      "MUSESCORE_EXE") = true ∧
    truthy (dictGet (load_dotenv (some "MUSESCORE_EXE=ms\nJIANPU_QML=plug"))
      "JIANPU_QML") = true ∧
    (["AUDIVERIS_EXE", "MUSESCORE_EXE", "JIANPU_QML"] : List String) ≠ ["AUDIVERIS_EXE"] := by
  refine ⟨?_, ?_, ?_, ?_, ?_⟩ <;> decide

/-- C4 amended: for every configuration source missing (or carrying
empty) any non-empty subset of the three required keys, the resolver
fails before any child process is started (an error return means no
command vector is ever produced), and the failure names the full fixed
list of the three required keys together with the resolved
configuration path, regardless of which subset is missing. -/
theorem config_missing_key_failure (content : Option String)
    (dotenvPath pdfIn outDir : String) (pdfInExists : Bool) (pythonExe mainPy : String)
    (h : truthy (dictGet (load_dotenv content) "AUDIVERIS_EXE") = false ∨
      truthy (dictGet (load_dotenv content) "MUSESCORE_EXE") = false ∨
      truthy (dictGet (load_dotenv content) "JIANPU_QML") = false) :
    runMain content dotenvPath pdfIn outDir pdfInExists pythonExe mainPy =
      Except.error (RunError.missingConfiguration requiredKeys dotenvPath) := by
  rcases h with h | h | h <;> simp [runMain, h]

/-- Witness for the amended C4: a configuration carrying only
`AUDIVERIS_EXE`. -/
theorem config_missing_key_failure_witness :
    runMain (some "AUDIVERIS_EXE=aud") ".env" "in.pdf" "outdir" true "py" "main.py" =
      Except.error (RunError.missingConfiguration requiredKeys ".env") :=
  config_missing_key_failure (some "AUDIVERIS_EXE=aud") ".env" "in.pdf" "outdir"
    true "py" "main.py" (Or.inr (Or.inl (by decide)))

/-- C10: for a configuration-file path that does not exist,
`load_dotenv` returns the empty mapping rather than failing, so a
missing configuration file surfaces as the missing-required-keys
failure naming the required keys and the resolved configuration path,
never as a file-not-found error. -/
theorem missing_dotenv_gives_missing_keys (dotenvPath pdfIn outDir : String)
    (pdfInExists : Bool) (pythonExe mainPy : String) :
    load_dotenv none = [] ∧
    runMain none dotenvPath pdfIn outDir pdfInExists pythonExe mainPy =
      Except.error (RunError.missingConfiguration requiredKeys dotenvPath) := by
  refine ⟨rfl, ?_⟩
  simp [runMain, load_dotenv, dictGet, truthy]

end Backend
